import Mathlib

/-!
# Verification of the MVS camera model (`src/mvs/image.cc`)

Shallow embedding of the camera-geometry subsystem of `image.cc`:
construction of the 4×4 projection matrix with its numerical-stability
rescale (`Compute4by4ProjectionMatrix`), the projection center
(`ComputeProjectionCenter`), per-point depth (`Image::GetDepth`), the
90°/180°/270° rotation remapping (`Image::Rotate90Multi` and friends),
image rescaling (`Image::Rescale` / `Image::Downsize`), the intrinsic
setter (`Image::SetK`) and the relative-pose helper
(`ComputeRelativePose`).

Modelling conventions:
* C++ `double`/`float` values are modelled by `ℚ` (exact arithmetic);
  the `double → float` precision reductions of the source are therefore
  the identity in the model.  All claims under verification are
  structural/algebraic, and every concrete input used below consists of
  small integers and small dyadic rationals, on which the IEEE
  computation of the source is itself exact.
* Row-major `double[9]`/`double[16]` arrays become `Matrix (Fin 3) (Fin 3) ℚ` /
  `Matrix (Fin 4) (Fin 4) ℚ`; `double[3]`/`double[4]` become `Fin 3 → ℚ` /
  `Fin 4 → ℚ`.
* Eigen's fixed-size `.inverse()` is the analytic adjugate/cofactor
  inverse; it is embedded as `inv4` below (explicit cofactors divided by
  the determinant).  `Eigen::maxCoeff()` is the *signed* maximum entry,
  embedded as `maxCoeff4`.
* In `ℚ`, division by zero yields `0` where IEEE yields `±inf`/NaN; every
  theorem below whose conclusion depends on a division carries the
  nonzero-denominator hypotheses making the model and IEEE agree, and
  counterexamples are chosen so that the refuted property fails in both
  semantics.
* The `Bitmap` collaborator (outside this translation unit) is opaque:
  only its dimensions matter to the claims, so it is modelled as a pair
  of dimensions, `Option`-wrapped to model the nullable data pointer.
-/

namespace ColmapMVS

open scoped Matrix

abbrev Mat3 := Matrix (Fin 3) (Fin 3) ℚ

abbrev Mat4 := Matrix (Fin 4) (Fin 4) ℚ

abbrev Vec3 := Fin 3 → ℚ

abbrev Vec4 := Fin 4 → ℚ

/-- The 3×4 block `[R | T]` (`P_3by4.leftCols<3>() = R; P_3by4.rightCols<1>() = T`). -/
def rtAug (R : Mat3) (T : Vec3) : Matrix (Fin 3) (Fin 4) ℚ :=
  Matrix.of fun i => ![R i 0, R i 1, R i 2, T i]

/-- The stacked 4×4 matrix: rows 0–2 are `K * [R | T]`, row 3 is `last_row`
(`P_4by4.block<3,4>(0,0) = P_3by4; P_4by4.row(3) = last_row`). -/
def stack4 (K R : Mat3) (T : Vec3) (lastRow : Vec4) : Mat4 :=
  Matrix.of ![(K * rtAug R T) 0, (K * rtAug R T) 1, (K * rtAug R T) 2, lastRow]

/-- Signed maximum entry of a 4×4 matrix: `Eigen::maxCoeff()`. -/
def maxCoeff4 (A : Mat4) : ℚ :=
  max (max (max (max (A 0 0) (A 0 1)) (max (A 0 2) (A 0 3)))
           (max (max (A 1 0) (A 1 1)) (max (A 1 2) (A 1 3))))
      (max (max (max (A 2 0) (A 2 1)) (max (A 2 2) (A 2 3)))
           (max (max (A 3 0) (A 3 1)) (max (A 3 2) (A 3 3))))

/-- Maximum absolute entry of a 4×4 matrix (the "component-wise maximum
absolute value" used by the spec's wording; the code itself uses
`maxCoeff4`). -/
def maxAbs4 (A : Mat4) : ℚ :=
  maxCoeff4 (Matrix.of fun i j => |A i j|)

/-- Determinant of a 3×3 array of scalars (row-major), used for the
cofactors of the analytic 4×4 inverse. -/
def det3s (a b c d e f g h i : ℚ) : ℚ :=
  a * (e * i - f * h) - b * (d * i - f * g) + c * (d * h - e * g)

/-- Determinant of a 4×4 matrix by cofactor expansion along the first row. -/
def det4 (A : Mat4) : ℚ :=
  A 0 0 * det3s (A 1 1) (A 1 2) (A 1 3) (A 2 1) (A 2 2) (A 2 3) (A 3 1) (A 3 2) (A 3 3)
  - A 0 1 * det3s (A 1 0) (A 1 2) (A 1 3) (A 2 0) (A 2 2) (A 2 3) (A 3 0) (A 3 2) (A 3 3)
  + A 0 2 * det3s (A 1 0) (A 1 1) (A 1 3) (A 2 0) (A 2 1) (A 2 3) (A 3 0) (A 3 1) (A 3 3)
  - A 0 3 * det3s (A 1 0) (A 1 1) (A 1 2) (A 2 0) (A 2 1) (A 2 2) (A 3 0) (A 3 1) (A 3 2)

/-- Adjugate (transposed cofactor matrix) of a 4×4 matrix, written out
entrywise: entry `(i, j)` is the cofactor `C(j, i)`. -/
def adj4 (A : Mat4) : Mat4 :=
  Matrix.of
    ![![det3s (A 1 1) (A 1 2) (A 1 3) (A 2 1) (A 2 2) (A 2 3) (A 3 1) (A 3 2) (A 3 3),
       -det3s (A 0 1) (A 0 2) (A 0 3) (A 2 1) (A 2 2) (A 2 3) (A 3 1) (A 3 2) (A 3 3),
       det3s (A 0 1) (A 0 2) (A 0 3) (A 1 1) (A 1 2) (A 1 3) (A 3 1) (A 3 2) (A 3 3),
       -det3s (A 0 1) (A 0 2) (A 0 3) (A 1 1) (A 1 2) (A 1 3) (A 2 1) (A 2 2) (A 2 3)],
      ![-det3s (A 1 0) (A 1 2) (A 1 3) (A 2 0) (A 2 2) (A 2 3) (A 3 0) (A 3 2) (A 3 3),
       det3s (A 0 0) (A 0 2) (A 0 3) (A 2 0) (A 2 2) (A 2 3) (A 3 0) (A 3 2) (A 3 3),
       -det3s (A 0 0) (A 0 2) (A 0 3) (A 1 0) (A 1 2) (A 1 3) (A 3 0) (A 3 2) (A 3 3),
       det3s (A 0 0) (A 0 2) (A 0 3) (A 1 0) (A 1 2) (A 1 3) (A 2 0) (A 2 2) (A 2 3)],
      ![det3s (A 1 0) (A 1 1) (A 1 3) (A 2 0) (A 2 1) (A 2 3) (A 3 0) (A 3 1) (A 3 3),
       -det3s (A 0 0) (A 0 1) (A 0 3) (A 2 0) (A 2 1) (A 2 3) (A 3 0) (A 3 1) (A 3 3),
       det3s (A 0 0) (A 0 1) (A 0 3) (A 1 0) (A 1 1) (A 1 3) (A 3 0) (A 3 1) (A 3 3),
       -det3s (A 0 0) (A 0 1) (A 0 3) (A 1 0) (A 1 1) (A 1 3) (A 2 0) (A 2 1) (A 2 3)],
      ![-det3s (A 1 0) (A 1 1) (A 1 2) (A 2 0) (A 2 1) (A 2 2) (A 3 0) (A 3 1) (A 3 2),
       det3s (A 0 0) (A 0 1) (A 0 2) (A 2 0) (A 2 1) (A 2 2) (A 3 0) (A 3 1) (A 3 2),
       -det3s (A 0 0) (A 0 1) (A 0 2) (A 1 0) (A 1 1) (A 1 2) (A 3 0) (A 3 1) (A 3 2),
       det3s (A 0 0) (A 0 1) (A 0 2) (A 1 0) (A 1 1) (A 1 2) (A 2 0) (A 2 1) (A 2 2)]]

/-- Analytic inverse of a 4×4 matrix (Eigen's fixed-size `.inverse()`):
adjugate divided by the determinant. -/
def inv4 (A : Mat4) : Mat4 :=
  (det4 A)⁻¹ • adj4 A

/-- The helper `Compute4by4ProjectionMatrix`: stack `K·[R|T]` with the last
row, rescale by `10.0 / maxCoeff`, invert the scaled matrix, independently
rescale the inverse by `10.0 / maxCoeff`. Returns `(P, inv_P)`. -/
def compute4by4ProjectionMatrix (K R : Mat3) (T : Vec3) (lastRow : Vec4) :
    Mat4 × Mat4 :=
  let A := stack4 K R T lastRow
  let P := (10 / maxCoeff4 A) • A
  let B := inv4 P
  let invP := (10 / maxCoeff4 B) • B
  (P, invP)

/-- The helper `ComputeProjectionCenter`: `C = -Rᵗ · T`. -/
def computeProjectionCenter (R : Mat3) (T : Vec3) : Vec3 :=
  -(R.transpose *ᵥ T)

/-- Homogeneous lift of a 3-D point: `X = (x, y, z, 1.0)`. -/
def homog (x y z : ℚ) : Vec4 :=
  ![x, y, z, 1]

/-- The pixel-buffer collaborator (`Bitmap`), opaque to this module: only
its dimensions are relevant to the camera geometry.  An `Image` holds an
`Option Bitmap`, `none` modelling a null data pointer (no pixels
attached). -/
structure Bitmap where
  width : ℕ
  height : ℕ
deriving DecidableEq

/-- The `Image` camera state: path/dimension metadata, intrinsics `K_`,
extrinsics `R_`, `T_`, the auxiliary fourth row `last_row_`, and the
optional pixel buffer `bitmap_`. -/
structure Image where
  path : String
  width : ℕ
  height : ℕ
  K : Mat3
  R : Mat3
  T : Vec3
  lastRow : Vec4
  bitmap : Option Bitmap

/-- `Image::SetK`: overwrites the stored intrinsic matrix (the method is
declared `const` in C++ but physically mutates the `mutable` member). -/
def Image.SetK (img : Image) (K : Mat3) : Image :=
  { img with K := K }

/-- `Image::SetLastRow`. -/
def Image.SetLastRow (img : Image) (lastRow : Vec4) : Image :=
  { img with lastRow := lastRow }

/-- `Image::GetKDouble`: returns the stored `K_` exactly. -/
def Image.GetKDouble (img : Image) : Mat3 :=
  img.K

/-- `Image::GetK`: the stored `K_` after `double → float` reduction
(identity in the model). -/
def Image.GetK (img : Image) : Mat3 :=
  img.K

/-- `Image::GetRT`: the stored `R_`, `T_` after precision reduction. -/
def Image.GetRT (img : Image) : Mat3 × Vec3 :=
  (img.R, img.T)

/-- `Image::GetPinvPDouble`: builds `(P, inv_P)` from the stored state via
`Compute4by4ProjectionMatrix`. -/
def Image.GetPinvPDouble (img : Image) : Mat4 × Mat4 :=
  compute4by4ProjectionMatrix img.K img.R img.T img.lastRow

/-- `Image::GetPinvP`: same build, outputs reduced to single precision
(identity in the model). -/
def Image.GetPinvP (img : Image) : Mat4 × Mat4 :=
  img.GetPinvPDouble

/-- `Image::GetCDouble`: projection center from the stored `R_`, `T_`. -/
def Image.GetCDouble (img : Image) : Vec3 :=
  computeProjectionCenter img.R img.T

/-- `Image::GetC`: projection center after precision reduction. -/
def Image.GetC (img : Image) : Vec3 :=
  img.GetCDouble

/-- `Image::GetDepth`: rebuilds the *unscaled* stacked 4×4 matrix inline
(the same Eigen expressions as in `Compute4by4ProjectionMatrix`, but with
no `10.0 / maxCoeff` rescale), applies it to `(x, y, z, 1)` and divides
the third component by the fourth. -/
def Image.GetDepth (img : Image) (x y z : ℚ) : ℚ :=
  let P_3by4 := img.K * rtAug img.R img.T
  let P_4by4 : Mat4 := Matrix.of ![P_3by4 0, P_3by4 1, P_3by4 2, img.lastRow]
  let result := P_4by4 *ᵥ homog x y z
  result 2 / result 3

/-- The output bundle written by `Image::Original` / `Image::Rotate90` /
`Image::Rotate180` / `Image::Rotate270` into their six out-parameters. -/
structure CamOutputs where
  K : Mat3
  R : Mat3
  T : Vec3
  P : Mat4
  invP : Mat4
  C : Vec3

/-- The fixed 90° rotation matrix `[[0,1,0],[-1,0,0],[0,0,1]]` built by the
rotated variants (`rot << 0,1,0, -1,0,0, 0,0,1`). -/
def rotMat : Mat3 :=
  Matrix.of ![![0, 1, 0], ![-1, 0, 0], ![0, 0, 1]]

/-- `Image::Original`: stored `K`, `R`, `T`, derived `P`/`inv_P` and `C`,
reduced to single precision (identity in the model). -/
def Image.Original (img : Image) : CamOutputs :=
  let PiP := compute4by4ProjectionMatrix img.K img.R img.T img.lastRow
  { K := img.K, R := img.R, T := img.T, P := PiP.1, invP := PiP.2,
    C := computeProjectionCenter img.R img.T }

/-- `Image::Rotate90`: remapped intrinsics (`K_new` zero-initialized, then
`K_new[0] = fy`, `K_new[2] = cy`, `K_new[4] = fx`,
`K_new[5] = -cx + width - 1`, `K_new[8] = 1`), extrinsics premultiplied by
`rotMat`, and `P`/`inv_P`/`C` derived from the new parameters. -/
def Image.Rotate90 (img : Image) : CamOutputs :=
  let fx_old := img.K 0 0
  let cx_old := img.K 0 2
  let fy_old := img.K 1 1
  let cy_old := img.K 1 2
  let K_new : Mat3 := Matrix.of
    ![![fy_old, 0, cy_old],
      ![0, fx_old, -cx_old + (img.width : ℚ) - 1],
      ![0, 0, 1]]
  let R_new := rotMat * img.R
  let T_new := rotMat *ᵥ img.T
  let PiP := compute4by4ProjectionMatrix K_new R_new T_new img.lastRow
  { K := K_new, R := R_new, T := T_new, P := PiP.1, invP := PiP.2,
    C := computeProjectionCenter R_new T_new }

/-- `Image::Rotate180`: `K_new[0] = fx`, `K_new[2] = -cx + width - 1`,
`K_new[4] = fy`, `K_new[5] = -cy + height - 1`, `K_new[8] = 1`; extrinsics
premultiplied by `rotMat * rotMat`. -/
def Image.Rotate180 (img : Image) : CamOutputs :=
  let fx_old := img.K 0 0
  let cx_old := img.K 0 2
  let fy_old := img.K 1 1
  let cy_old := img.K 1 2
  let K_new : Mat3 := Matrix.of
    ![![fx_old, 0, -cx_old + (img.width : ℚ) - 1],
      ![0, fy_old, -cy_old + (img.height : ℚ) - 1],
      ![0, 0, 1]]
  let rot2 := rotMat * rotMat
  let R_new := rot2 * img.R
  let T_new := rot2 *ᵥ img.T
  let PiP := compute4by4ProjectionMatrix K_new R_new T_new img.lastRow
  { K := K_new, R := R_new, T := T_new, P := PiP.1, invP := PiP.2,
    C := computeProjectionCenter R_new T_new }

/-- `Image::Rotate270`: `K_new[0] = fy`, `K_new[2] = -cy + height - 1`,
`K_new[4] = fx`, `K_new[5] = cx`, `K_new[8] = 1`; extrinsics premultiplied
by `rotMat * rotMat * rotMat`. -/
def Image.Rotate270 (img : Image) : CamOutputs :=
  let fx_old := img.K 0 0
  let cx_old := img.K 0 2
  let fy_old := img.K 1 1
  let cy_old := img.K 1 2
  let K_new : Mat3 := Matrix.of
    ![![fy_old, 0, -cy_old + (img.height : ℚ) - 1],
      ![0, fx_old, cx_old],
      ![0, 0, 1]]
  let rot3 := rotMat * rotMat * rotMat
  let R_new := rot3 * img.R
  let T_new := rot3 *ᵥ img.T
  let PiP := compute4by4ProjectionMatrix K_new R_new T_new img.lastRow
  { K := K_new, R := R_new, T := T_new, P := PiP.1, invP := PiP.2,
    C := computeProjectionCenter R_new T_new }

/-- `Image::Rotate90Multi`: dispatches on `cnt % 4`.  C++ `%` on `int` is
truncated division (`Int.tmod`), so the remainder of a negative `cnt` is
negative; the `switch` covers the remainders `0, 1, 2, 3` and its
`default` branch writes none of the six out-parameters, modelled as
`none`. -/
def Image.Rotate90Multi (img : Image) (cnt : ℤ) : Option CamOutputs :=
  let r := Int.tmod cnt 4
  if r = 0 then some img.Original
  else if r = 1 then some img.Rotate90
  else if r = 2 then some img.Rotate180
  else if r = 3 then some img.Rotate270
  else none

/-- `Image::Rescale(factor_x, factor_y)`: new integer dimensions by
rounding, bitmap rescaled when attached, and the pixel-scale entries of
`K_` (indices 0, 2, 4, 5) multiplied by the *realized* per-axis scales
`new_width / width`, `new_height / height`.  `std::round` rounds halves
away from zero; for the nonnegative products arising in this module this
agrees with Mathlib's `round`, whose nonnegative integer part is taken
here. -/
def Image.Rescale (img : Image) (factor_x factor_y : ℚ) : Image :=
  let new_width : ℕ := (round ((img.width : ℚ) * factor_x)).toNat
  let new_height : ℕ := (round ((img.height : ℚ) * factor_y)).toNat
  let scale_x : ℚ := (new_width : ℚ) / (img.width : ℚ)
  let scale_y : ℚ := (new_height : ℚ) / (img.height : ℚ)
  { img with
    width := new_width
    height := new_height
    bitmap := img.bitmap.map fun _ => ⟨new_width, new_height⟩
    K := Matrix.of
      ![![img.K 0 0 * scale_x, img.K 0 1, img.K 0 2 * scale_x],
        ![img.K 1 0, img.K 1 1 * scale_y, img.K 1 2 * scale_y],
        ![img.K 2 0, img.K 2 1, img.K 2 2]] }

/-- `Image::Rescale(factor)`: the symmetric case. -/
def Image.RescaleUniform (img : Image) (factor : ℚ) : Image :=
  img.Rescale factor factor

/-- `Image::Downsize`: no-op when both dimensions already fit, otherwise a
uniform `Rescale` by the more restrictive of the two per-axis factors. -/
def Image.Downsize (img : Image) (max_width max_height : ℕ) : Image :=
  if img.width ≤ max_width ∧ img.height ≤ max_height then img
  else
    let factor_x : ℚ := (max_width : ℚ) / (img.width : ℚ)
    let factor_y : ℚ := (max_height : ℚ) / (img.height : ℚ)
    img.RescaleUniform (min factor_x factor_y)

/-- The free function `ComputeRelativePose`: `R = R2 · R1ᵗ`,
`T = T2 − R · T1` (single-precision in the source; exact in the model). -/
def computeRelativePose (R1 : Mat3) (T1 : Vec3) (R2 : Mat3) (T2 : Vec3) :
    Mat3 × Vec3 :=
  let R := R2 * R1.transpose
  (R, T2 - R *ᵥ T1)

/-! ## Concrete inputs used by counterexamples and witnesses -/

/-- The identity intrinsic/rotation matrix, written entrywise for direct
evaluation. -/
def id3 : Mat3 :=
  Matrix.of ![![1, 0, 0], ![0, 1, 0], ![0, 0, 1]]

/-- The negated identity rotation, an orthogonal matrix whose stacked 4×4
matrix has signed maximum entry `0`. -/
def negId3 : Mat3 :=
  Matrix.of ![![-1, 0, 0], ![0, -1, 0], ![0, 0, -1]]

/-- The concrete camera of the spec's Rotate90 scenario:
`K = [[1000,0,640],[0,1000,480],[0,0,1]]`, 1280×960, identity `R`, zero
`T`. -/
def imgC2 : Image :=
  { path := "scenario", width := 1280, height := 960,
    K := Matrix.of ![![1000, 0, 640], ![0, 1000, 480], ![0, 0, 1]],
    R := id3, T := ![0, 0, 0], lastRow := ![0, 0, 0, 1], bitmap := none }

/-- A camera with the canonical last row `(0,0,0,1)`: its depth at the
projection center `C = (0,0,-5)` is the finite value `0`, not a
degenerate one. -/
def imgC5 : Image :=
  { path := "center", width := 2, height := 2, K := id3, R := id3,
    T := ![0, 0, 5], lastRow := ![0, 0, 0, 1], bitmap := none }

/-- The same camera with the depth-plane last row `(R₂₀,R₂₁,R₂₂,T₂) =
(0,0,1,5)`, which vanishes on the homogeneous projection center. -/
def imgC5w : Image :=
  { path := "center", width := 2, height := 2, K := id3, R := id3,
    T := ![0, 0, 5], lastRow := ![0, 0, 1, 5], bitmap := none }

/-- A small 4×3 camera for the Downsize and rotation-dispatch claims. -/
def imgD : Image :=
  { path := "small", width := 4, height := 3, K := id3, R := id3,
    T := ![0, 0, 0], lastRow := ![0, 0, 0, 1], bitmap := none }

/-- The stacked matrix of `K = R = I`, `T = 0`, `last_row = (0,0,0,2)`. -/
def stackC6 : Mat4 :=
  Matrix.of ![![1, 0, 0, 0], ![0, 1, 0, 0], ![0, 0, 1, 0], ![0, 0, 0, 2]]

/-- Its `10 / maxCoeff` rescale (`maxCoeff = 2`). -/
def scaledC6 : Mat4 :=
  Matrix.of ![![5, 0, 0, 0], ![0, 5, 0, 0], ![0, 0, 5, 0], ![0, 0, 0, 10]]

/-- The exact inverse of the rescaled matrix. -/
def invScaledC6 : Mat4 :=
  Matrix.of ![![1/5, 0, 0, 0], ![0, 1/5, 0, 0], ![0, 0, 1/5, 0], ![0, 0, 0, 1/10]]

/-! ## Support lemmas -/

/-- Eta rule for concrete 3-vectors. -/
theorem vec3_eta (v : Vec3) : ![v 0, v 1, v 2] = v := by
  funext i
  fin_cases i <;> rfl

/-- The entrywise identity literal is the identity matrix. -/
theorem id3_eq_one : id3 = 1 := by
  ext i j
  fin_cases i <;> fin_cases j <;>
    simp [id3, Matrix.one_apply, Matrix.vecHead, Matrix.vecTail]

/-- Laplace-expansion identity for the explicit adjugate: `A · adj(A) = det(A) · I`. -/
theorem mul_adj4 (A : Mat4) : A * adj4 A = det4 A • (1 : Mat4) := by
  ext i j
  fin_cases i <;> fin_cases j <;>
    simp [Matrix.mul_apply, Fin.sum_univ_four, adj4, det4, det3s,
      Matrix.smul_apply, Matrix.one_apply, smul_eq_mul,
      Matrix.vecHead, Matrix.vecTail] <;> ring

/-- The analytic inverse is a right inverse when the determinant is nonzero. -/
theorem mul_inv4 {A : Mat4} (h : det4 A ≠ 0) : A * inv4 A = 1 := by
  rw [inv4, Matrix.mul_smul, mul_adj4, smul_smul, inv_mul_cancel₀ h, one_smul]

/-- The explicit 4×4 determinant scales with the fourth power. -/
theorem det4_smul (c : ℚ) (A : Mat4) : det4 (c • A) = c ^ 4 * det4 A := by
  simp only [det4, det3s, Matrix.smul_apply, smul_eq_mul]
  ring

/-- A positive scalar distributes over the signed maximum entry. -/
theorem maxCoeff4_smul {c : ℚ} (hc : 0 < c) (A : Mat4) :
    maxCoeff4 (c • A) = c * maxCoeff4 A := by
  simp only [maxCoeff4, Matrix.smul_apply, smul_eq_mul,
    mul_max_of_nonneg _ _ hc.le]

/-- Row 3 of the stacked matrix acts as the last row. -/
theorem stack4_mulVec_three (K R : Mat3) (T : Vec3) (lastRow : Vec4)
    (v : Vec4) : (stack4 K R T lastRow *ᵥ v) 3 = lastRow ⬝ᵥ v := by
  simp [stack4, Matrix.mulVec]

/-- Row 2 of the stacked matrix acts as the third row of `K·[R|T]`. -/
theorem stack4_mulVec_two (K R : Mat3) (T : Vec3) (lastRow : Vec4)
    (v : Vec4) : (stack4 K R T lastRow *ᵥ v) 2 = ((K * rtAug R T) *ᵥ v) 2 := by
  simp [stack4, Matrix.mulVec, Matrix.vecHead, Matrix.vecTail]

/-- For an orthogonal rotation (`R · Rᵗ = 1`), the rigid transform
annihilates the projection center: `R · C + T = 0`. -/
theorem center_annihilated (R : Mat3) (T : Vec3)
    (horth : R * R.transpose = 1) :
    R *ᵥ computeProjectionCenter R T + T = 0 := by
  simp [computeProjectionCenter, Matrix.mulVec_neg, Matrix.mulVec_mulVec,
    horth, Matrix.one_mulVec]

/-- Applying `[R | T]` to a homogeneous point is the affine action `R·p + T`. -/
theorem rtAug_mulVec_homog (R : Mat3) (T : Vec3) (x y z : ℚ) :
    rtAug R T *ᵥ homog x y z = R *ᵥ ![x, y, z] + T := by
  funext i
  simp [rtAug, homog, Matrix.mulVec, Matrix.dotProduct, Fin.sum_univ_four,
    Fin.sum_univ_three, Matrix.vecHead, Matrix.vecTail]

/-- Evaluation of the stacked matrix at the C6 example input. -/
theorem stackC6_eval : stack4 id3 id3 ![0, 0, 0] ![0, 0, 0, 2] = stackC6 := by
  ext i j
  fin_cases i <;> fin_cases j <;>
    norm_num [stack4, stackC6, rtAug, id3, Matrix.mul_apply,
      Fin.sum_univ_three, Matrix.vecHead, Matrix.vecTail]

/-- Evaluation of the rescaled `P` at the C6 example input. -/
theorem scaledC6_eval :
    (10 / maxCoeff4 (stack4 id3 id3 ![0, 0, 0] ![0, 0, 0, 2])) •
      stack4 id3 id3 ![0, 0, 0] ![0, 0, 0, 2] = scaledC6 := by
  rw [stackC6_eval]
  have hm2 : maxCoeff4 stackC6 = 2 := by
    norm_num [maxCoeff4, stackC6, Matrix.vecHead, Matrix.vecTail]
  rw [hm2]
  ext i j
  fin_cases i <;> fin_cases j <;>
    norm_num [stackC6, scaledC6, Matrix.smul_apply,
      Matrix.vecHead, Matrix.vecTail]

/-- Evaluation of the analytic inverse of the rescaled `P`. -/
theorem inv4_scaledC6_eval : inv4 scaledC6 = invScaledC6 := by
  ext i j
  fin_cases i <;> fin_cases j <;>
    norm_num [inv4, adj4, det4, det3s, scaledC6, invScaledC6,
      Matrix.vecHead, Matrix.vecTail]

/-- The signed maximum of the inverse of the rescaled `P`. -/
theorem maxCoeff_invScaledC6_eval : maxCoeff4 invScaledC6 = 1 / 5 := by
  norm_num [maxCoeff4, invScaledC6, Matrix.vecHead, Matrix.vecTail]

/-- The truncated remainder of a negative dividend is nonpositive (the
sign convention of C++ `%`), by cases on the constructors of `Int.tmod`. -/
theorem tmod_nonpos_of_neg : ∀ (a b : ℤ), a < 0 → Int.tmod a b ≤ 0
  | Int.ofNat _, _, ha => absurd ha (Int.ofNat_nonneg _).not_lt
  | Int.negSucc m, Int.ofNat n, _ => by
      show -Int.ofNat (Nat.succ m % n) ≤ 0
      exact neg_nonpos.mpr (Int.ofNat_nonneg _)
  | Int.negSucc m, Int.negSucc n, _ => by
      show -Int.ofNat (Nat.succ m % Nat.succ n) ≤ 0
      exact neg_nonpos.mpr (Int.ofNat_nonneg _)

/-! ## Claims -/

/-- C2: for every stored camera, `Rotate90` returns intrinsics
`fx' = fy`, `cx' = cy`, `fy' = fx`, `cy' = -cx + width - 1` with `K[8]`
forced to `1` (and the zero-initialized entries elsewhere), extrinsics
`R' = rot · R`, `T' = rot · T` for the fixed matrix
`rot = [[0,1,0],[-1,0,0],[0,0,1]]`, and `P`/`inv_P`/`C` derived from the
new `K`, `R`, `T`; in particular the 1280×960 camera with
`K = [[1000,0,640],[0,1000,480],[0,0,1]]`, identity `R` and zero `T`
yields `fx' = 1000`, `fy' = 1000`, `cx' = 480`, `cy' = 639`, `R' = rot`,
`T' = 0`. -/
theorem C2_rotate90_remap :
    (∀ img : Image,
      img.Rotate90.K = Matrix.of
        ![![img.K 1 1, 0, img.K 1 2],
          ![0, img.K 0 0, -img.K 0 2 + (img.width : ℚ) - 1],
          ![0, 0, 1]] ∧
      img.Rotate90.R = rotMat * img.R ∧
      img.Rotate90.T = rotMat *ᵥ img.T ∧
      img.Rotate90.P =
        (compute4by4ProjectionMatrix img.Rotate90.K img.Rotate90.R
          img.Rotate90.T img.lastRow).1 ∧
      img.Rotate90.invP =
        (compute4by4ProjectionMatrix img.Rotate90.K img.Rotate90.R
          img.Rotate90.T img.lastRow).2 ∧
      img.Rotate90.C = computeProjectionCenter img.Rotate90.R img.Rotate90.T) ∧
    (imgC2.Rotate90.K = Matrix.of ![![1000, 0, 480], ![0, 1000, 639], ![0, 0, 1]] ∧
     imgC2.Rotate90.R = rotMat ∧
     imgC2.Rotate90.T = ![0, 0, 0]) := by
  refine ⟨fun img => ⟨rfl, rfl, rfl, rfl, rfl, rfl⟩, ?_, ?_, ?_⟩
  · ext i j
    fin_cases i <;> fin_cases j <;>
      norm_num [Image.Rotate90, imgC2, Matrix.vecHead, Matrix.vecTail]
  · show rotMat * id3 = rotMat
    rw [id3_eq_one, mul_one]
  · show rotMat *ᵥ ![0, 0, 0] = ![0, 0, 0]
    funext i
    fin_cases i <;>
      norm_num [rotMat, Matrix.mulVec, Matrix.dotProduct, Fin.sum_univ_three,
        Matrix.vecHead, Matrix.vecTail]

/-- C3: `Rotate90Multi` with `cnt = 0` returns exactly the stored `K`,
`R`, `T` and the derived `P`, `inv_P`, `C` of the direct unrotated
accessors (`GetK`/`GetRT`/`GetPinvP`/`GetC`), the single-precision
reduction being the identity of the exact model. -/
theorem C3_rotate0_is_original (img : Image) :
    img.Rotate90Multi 0 = some
      { K := img.GetK, R := img.GetRT.1, T := img.GetRT.2,
        P := img.GetPinvP.1, invP := img.GetPinvP.2, C := img.GetC } :=
  rfl

/-- C4: `GetDepth(x, y, z)` is the third component divided by the fourth
component of the *unscaled* stacked 4×4 matrix `[K·[R|T]; last_row]`
applied to the homogeneous point `(x, y, z, 1)` — no `10/maxCoeff`
stability rescale is involved. -/
theorem C4_depth_unscaled (img : Image) (x y z : ℚ) :
    img.GetDepth x y z =
      (stack4 img.K img.R img.T img.lastRow *ᵥ homog x y z) 2 /
      (stack4 img.K img.R img.T img.lastRow *ᵥ homog x y z) 3 :=
  rfl

/-- C8: `Downsize(maxW, maxH)` with `maxW ≥ width` and `maxH ≥ height`
changes nothing (width, height, K, path, bitmap all unchanged); otherwise
it calls `Rescale` with the single factor
`min(maxW / width, maxH / height)` applied uniformly to both axes. -/
theorem C8_downsize (img : Image) (maxW maxH : ℕ) :
    (img.width ≤ maxW ∧ img.height ≤ maxH → img.Downsize maxW maxH = img) ∧
    (¬(img.width ≤ maxW ∧ img.height ≤ maxH) →
      img.Downsize maxW maxH =
        img.Rescale
          (min ((maxW : ℚ) / (img.width : ℚ)) ((maxH : ℚ) / (img.height : ℚ)))
          (min ((maxW : ℚ) / (img.width : ℚ)) ((maxH : ℚ) / (img.height : ℚ)))) := by
  constructor
  · intro h
    simp [Image.Downsize, h]
  · intro h
    simp [Image.Downsize, h, Image.RescaleUniform]

/-- C8 witness: a 4×3 camera is untouched by `Downsize(10, 10)` and is
uniformly rescaled by `min(2/4, 3/3) = 1/2` under `Downsize(2, 3)`. -/
theorem C8_downsize_witness :
    imgD.Downsize 10 10 = imgD ∧
    imgD.Downsize 2 3 = imgD.Rescale (1 / 2) (1 / 2) := by
  constructor
  · exact (C8_downsize imgD 10 10).1 (by constructor <;> norm_num [imgD])
  · have h := (C8_downsize imgD 2 3).2 (by norm_num [imgD])
    rw [h]
    norm_num [imgD]

/-- C9: `ComputeRelativePose` returns `R = R2 · R1ᵗ` and
`T = T2 − R · T1`; with `R2` the identity and `T2` zero it returns the
inverse transform `R = R1ᵗ`, `T = -R1ᵗ · T1`. -/
theorem C9_relative_pose :
    (∀ (R1 R2 : Mat3) (T1 T2 : Vec3),
      computeRelativePose R1 T1 R2 T2 =
        (R2 * R1.transpose, T2 - (R2 * R1.transpose) *ᵥ T1)) ∧
    (∀ (R1 : Mat3) (T1 : Vec3),
      (computeRelativePose R1 T1 1 0).1 = R1.transpose ∧
      (computeRelativePose R1 T1 1 0).2 = -(R1.transpose *ᵥ T1)) := by
  refine ⟨fun R1 R2 T1 T2 => rfl, fun R1 T1 => ⟨?_, ?_⟩⟩
  · show 1 * R1.transpose = R1.transpose
    rw [one_mul]
  · show (0 : Vec3) - (1 * R1.transpose) *ᵥ T1 = -(R1.transpose *ᵥ T1)
    rw [one_mul, zero_sub]

/-- C1 counterexample: at `K = R = I`, `T = (-5,0,0)`,
`last_row = (0,0,0,1)` the stacked matrix is invertible with nonzero
maximum-magnitude entry (`5`), yet the `P` returned by the build has
maximum absolute entry `50`, not `10`: the code divides by the *signed*
maximum coefficient (`1` here), not by the maximum absolute value. -/
theorem C1_counterexample :
    det4 (stack4 id3 id3 ![-5, 0, 0] ![0, 0, 0, 1]) ≠ 0 ∧
    maxAbs4 (stack4 id3 id3 ![-5, 0, 0] ![0, 0, 0, 1]) ≠ 0 ∧
    ¬(maxAbs4 (compute4by4ProjectionMatrix id3 id3 ![-5, 0, 0] ![0, 0, 0, 1]).1 = 10 ∧
      maxAbs4 (compute4by4ProjectionMatrix id3 id3 ![-5, 0, 0] ![0, 0, 0, 1]).2 = 10) := by
  refine ⟨?_, ?_, ?_⟩
  · norm_num [det4, det3s, stack4, rtAug, id3, Matrix.mul_apply,
      Fin.sum_univ_three, Matrix.vecHead, Matrix.vecTail]
  · norm_num [maxAbs4, maxCoeff4, stack4, rtAug, id3, Matrix.mul_apply,
      Fin.sum_univ_three, Matrix.vecHead, Matrix.vecTail]
  · intro h
    have hA : stack4 id3 id3 ![-5, 0, 0] ![0, 0, 0, 1] =
        Matrix.of ![![1, 0, 0, -5], ![0, 1, 0, 0], ![0, 0, 1, 0], ![0, 0, 0, 1]] := by
      ext i j
      fin_cases i <;> fin_cases j <;>
        norm_num [stack4, rtAug, id3, Matrix.mul_apply, Fin.sum_univ_three,
          Matrix.vecHead, Matrix.vecTail]
    have h1 : maxAbs4 ((10 / maxCoeff4 (stack4 id3 id3 ![-5, 0, 0] ![0, 0, 0, 1])) •
        stack4 id3 id3 ![-5, 0, 0] ![0, 0, 0, 1]) = 10 := h.1
    rw [hA] at h1
    norm_num [maxAbs4, maxCoeff4, Matrix.smul_apply, Matrix.vecHead,
      Matrix.vecTail] at h1

/-- Rescaling a matrix with positive signed maximum by `10 / maxCoeff`
normalizes the signed maximum to exactly `10`. -/
theorem maxCoeff4_rescale {A : Mat4} (h : 0 < maxCoeff4 A) :
    maxCoeff4 ((10 / maxCoeff4 A) • A) = 10 := by
  rw [maxCoeff4_smul (div_pos (by norm_num) h)]
  field_simp

/-- C1 (amended): the build rescales by `10 / maxCoeff`, the *signed*
maximum entry, not the maximum absolute value; whenever the signed
maximum of the stacked matrix and of the inverse of the scaled matrix are
both positive, the signed maximum entries (not the maximum absolute
entries) of the returned `P` and `inv_P` both equal `10`. -/
theorem C1_amended_signed_scaling (K R : Mat3) (T : Vec3) (l : Vec4)
    (hP : 0 < maxCoeff4 (stack4 K R T l))
    (hB : 0 < maxCoeff4 (inv4 ((10 / maxCoeff4 (stack4 K R T l)) • stack4 K R T l))) :
    maxCoeff4 (compute4by4ProjectionMatrix K R T l).1 = 10 ∧
    maxCoeff4 (compute4by4ProjectionMatrix K R T l).2 = 10 :=
  ⟨maxCoeff4_rescale hP, maxCoeff4_rescale hB⟩

/-- C1 witness: at `K = R = I`, `T = 0`, `last_row = (0,0,0,1)` both
positivity hypotheses hold and the amended claim evaluates: both signed
maxima equal `10`. -/
theorem C1_amended_signed_scaling_witness :
    0 < maxCoeff4 (stack4 id3 id3 ![0, 0, 0] ![0, 0, 0, 1]) ∧
    0 < maxCoeff4 (inv4 ((10 / maxCoeff4 (stack4 id3 id3 ![0, 0, 0] ![0, 0, 0, 1])) •
          stack4 id3 id3 ![0, 0, 0] ![0, 0, 0, 1])) ∧
    maxCoeff4 (compute4by4ProjectionMatrix id3 id3 ![0, 0, 0] ![0, 0, 0, 1]).1 = 10 ∧
    maxCoeff4 (compute4by4ProjectionMatrix id3 id3 ![0, 0, 0] ![0, 0, 0, 1]).2 = 10 := by
  have h1 : 0 < maxCoeff4 (stack4 id3 id3 ![0, 0, 0] ![0, 0, 0, 1]) := by
    norm_num [maxCoeff4, stack4, rtAug, id3, Matrix.mul_apply,
      Fin.sum_univ_three, Matrix.vecHead, Matrix.vecTail]
  have h2 : 0 < maxCoeff4 (inv4 ((10 / maxCoeff4 (stack4 id3 id3 ![0, 0, 0] ![0, 0, 0, 1])) •
      stack4 id3 id3 ![0, 0, 0] ![0, 0, 0, 1])) := by
    norm_num [maxCoeff4, inv4, adj4, det4, det3s, stack4, rtAug, id3,
      Matrix.mul_apply, Fin.sum_univ_three, Matrix.smul_apply,
      Matrix.vecHead, Matrix.vecTail]
  exact ⟨h1, h2, C1_amended_signed_scaling id3 id3 ![0, 0, 0] ![0, 0, 0, 1] h1 h2⟩

/-- C5 counterexample: for the canonical last row `(0,0,0,1)` (camera at
`C = (0,0,-5)`), the fourth homogeneous component of the unscaled 4×4
matrix at the projection center is `1` — not near zero — and `GetDepth`
returns the finite value `0`. -/
theorem C5_counterexample :
    imgC5.GetC = ![0, 0, -5] ∧
    (stack4 imgC5.K imgC5.R imgC5.T imgC5.lastRow *ᵥ homog 0 0 (-5)) 3 = 1 ∧
    imgC5.GetDepth 0 0 (-5) = 0 := by
  refine ⟨?_, ?_, ?_⟩
  · funext i
    fin_cases i <;>
      norm_num [Image.GetC, Image.GetCDouble, computeProjectionCenter, imgC5,
        id3, Matrix.mulVec, Matrix.dotProduct, Fin.sum_univ_three,
        Matrix.transpose_apply, Matrix.vecHead, Matrix.vecTail]
  · norm_num [stack4, rtAug, imgC5, id3, homog, Matrix.mulVec,
      Matrix.dotProduct, Fin.sum_univ_four, Fin.sum_univ_three,
      Matrix.mul_apply, Matrix.vecHead, Matrix.vecTail]
  · norm_num [Image.GetDepth, rtAug, imgC5, id3, homog, Matrix.mulVec,
      Matrix.dotProduct, Fin.sum_univ_four, Fin.sum_univ_three,
      Matrix.mul_apply, Matrix.vecHead, Matrix.vecTail]

/-- C5 (amended): the depth query at the projection center is degenerate
only under the depth-plane last-row convention: when `R` is orthogonal
and the last row is `(R₂₀, R₂₁, R₂₂, T₂)` (vanishing on the homogeneous
center), the fourth homogeneous component of the unscaled matrix at
`(C, 1)` is exactly `0` (so the IEEE division `0/0` is non-finite), and
the third component is `0` as well. -/
theorem C5_amended_center_degenerate (img : Image)
    (horth : img.R * img.R.transpose = 1)
    (hlast : img.lastRow = ![img.R 2 0, img.R 2 1, img.R 2 2, img.T 2]) :
    (stack4 img.K img.R img.T img.lastRow *ᵥ
      homog (img.GetC 0) (img.GetC 1) (img.GetC 2)) 3 = 0 ∧
    (stack4 img.K img.R img.T img.lastRow *ᵥ
      homog (img.GetC 0) (img.GetC 1) (img.GetC 2)) 2 = 0 := by
  have hkey : img.R *ᵥ computeProjectionCenter img.R img.T + img.T = 0 :=
    center_annihilated img.R img.T horth
  have hcenter : img.R *ᵥ ![img.GetC 0, img.GetC 1, img.GetC 2] + img.T = 0 := by
    rw [vec3_eta]
    exact hkey
  constructor
  · rw [stack4_mulVec_three, hlast]
    have h2 := congrFun hcenter 2
    simp [Matrix.mulVec, Matrix.dotProduct, Fin.sum_univ_three,
      Matrix.vecHead, Matrix.vecTail, Pi.add_apply, Pi.zero_apply] at h2
    simp [Matrix.dotProduct, homog, Fin.sum_univ_four,
      Matrix.vecHead, Matrix.vecTail]
    linarith
  · rw [stack4_mulVec_two, ← Matrix.mulVec_mulVec, rtAug_mulVec_homog,
      vec3_eta]
    rw [show img.R *ᵥ img.GetC + img.T = 0 from hkey]
    simp [Matrix.mulVec_zero]

/-- C5 witness: the camera at `C = (0,0,-5)` with depth-plane last row
`(0,0,1,5)` satisfies both hypotheses, and both homogeneous components at
the center vanish. -/
theorem C5_amended_center_degenerate_witness :
    imgC5w.R * imgC5w.R.transpose = 1 ∧
    imgC5w.lastRow = ![imgC5w.R 2 0, imgC5w.R 2 1, imgC5w.R 2 2, imgC5w.T 2] ∧
    (stack4 imgC5w.K imgC5w.R imgC5w.T imgC5w.lastRow *ᵥ
      homog (imgC5w.GetC 0) (imgC5w.GetC 1) (imgC5w.GetC 2)) 3 = 0 ∧
    (stack4 imgC5w.K imgC5w.R imgC5w.T imgC5w.lastRow *ᵥ
      homog (imgC5w.GetC 0) (imgC5w.GetC 1) (imgC5w.GetC 2)) 2 = 0 := by
  have horth : imgC5w.R * imgC5w.R.transpose = 1 := by
    show id3 * id3.transpose = 1
    rw [id3_eq_one, Matrix.transpose_one, mul_one]
  have hlast : imgC5w.lastRow = ![imgC5w.R 2 0, imgC5w.R 2 1, imgC5w.R 2 2, imgC5w.T 2] := by
    funext i
    fin_cases i <;>
      norm_num [imgC5w, id3, Matrix.vecHead, Matrix.vecTail]
  have h := C5_amended_center_degenerate imgC5w horth hlast
  exact ⟨horth, hlast, h.1, h.2⟩

/-- C6 counterexample: at `K = I`, `R = -I`, `T = 0`,
`last_row = (0,0,0,-1)` the stacked matrix is `-I`, which is invertible,
but its signed maximum coefficient is `0`: the build divides `10.0` by
zero (non-finite entries in IEEE; the zero matrix in the exact model),
and the returned product is not `λ·I` for any nonzero `λ`. -/
theorem C6_counterexample :
    det4 (stack4 id3 negId3 ![0, 0, 0] ![0, 0, 0, -1]) ≠ 0 ∧
    ¬∃ lam : ℚ, lam ≠ 0 ∧
      (compute4by4ProjectionMatrix id3 negId3 ![0, 0, 0] ![0, 0, 0, -1]).1 *
        (compute4by4ProjectionMatrix id3 negId3 ![0, 0, 0] ![0, 0, 0, -1]).2 =
        lam • (1 : Mat4) := by
  constructor
  · norm_num [det4, det3s, stack4, rtAug, id3, negId3, Matrix.mul_apply,
      Fin.sum_univ_three, Matrix.vecHead, Matrix.vecTail]
  · rintro ⟨lam, hlam, heq⟩
    have hm : maxCoeff4 (stack4 id3 negId3 ![0, 0, 0] ![0, 0, 0, -1]) = 0 := by
      norm_num [maxCoeff4, stack4, rtAug, id3, negId3, Matrix.mul_apply,
        Fin.sum_univ_three, Matrix.vecHead, Matrix.vecTail]
    have hP : (compute4by4ProjectionMatrix id3 negId3 ![0, 0, 0] ![0, 0, 0, -1]).1 = 0 := by
      show (10 / maxCoeff4 (stack4 id3 negId3 ![0, 0, 0] ![0, 0, 0, -1])) •
          stack4 id3 negId3 ![0, 0, 0] ![0, 0, 0, -1] = 0
      rw [hm, div_zero, zero_smul]
    rw [hP, zero_mul] at heq
    have h00 : (0 : Mat4) 0 0 = (lam • (1 : Mat4)) 0 0 := by rw [heq]
    simp [Matrix.smul_apply, Matrix.one_apply] at h00
    exact hlam h00.symm

/-- C6 (amended): whenever the stacked matrix is invertible *and* the two
signed maximum coefficients met by the build are nonzero (so neither
rescale divides by zero), `P · inv_P = λ·I` for the nonzero scalar
`λ = 10 / maxCoeff(inv of scaled P)`; and `P · inv_P` is not in general
the identity — at `K = R = I`, `T = 0`, `last_row = (0,0,0,2)` the product
is `50·I ≠ I`. -/
theorem C6_amended_scalar_multiple :
    (∀ (K R : Mat3) (T : Vec3) (l : Vec4),
      det4 (stack4 K R T l) ≠ 0 →
      maxCoeff4 (stack4 K R T l) ≠ 0 →
      maxCoeff4 (inv4 ((10 / maxCoeff4 (stack4 K R T l)) • stack4 K R T l)) ≠ 0 →
      ∃ lam : ℚ, lam ≠ 0 ∧
        (compute4by4ProjectionMatrix K R T l).1 *
          (compute4by4ProjectionMatrix K R T l).2 = lam • (1 : Mat4)) ∧
    ((compute4by4ProjectionMatrix id3 id3 ![0, 0, 0] ![0, 0, 0, 2]).1 *
        (compute4by4ProjectionMatrix id3 id3 ![0, 0, 0] ![0, 0, 0, 2]).2 =
        (50 : ℚ) • (1 : Mat4) ∧
      (50 : ℚ) • (1 : Mat4) ≠ (1 : Mat4)) := by
  constructor
  · intro K R T l hdet hm hb
    have hs : (10 / maxCoeff4 (stack4 K R T l)) ≠ 0 :=
      div_ne_zero (by norm_num) hm
    have hdetP : det4 ((10 / maxCoeff4 (stack4 K R T l)) • stack4 K R T l) ≠ 0 := by
      rw [det4_smul]
      exact mul_ne_zero (pow_ne_zero 4 hs) hdet
    refine ⟨10 / maxCoeff4 (inv4 ((10 / maxCoeff4 (stack4 K R T l)) • stack4 K R T l)),
      div_ne_zero (by norm_num) hb, ?_⟩
    show ((10 / maxCoeff4 (stack4 K R T l)) • stack4 K R T l) *
        ((10 / maxCoeff4 (inv4 ((10 / maxCoeff4 (stack4 K R T l)) • stack4 K R T l))) •
          inv4 ((10 / maxCoeff4 (stack4 K R T l)) • stack4 K R T l)) = _
    rw [Matrix.mul_smul, mul_inv4 hdetP]
  · constructor
    · show ((10 / maxCoeff4 (stack4 id3 id3 ![0, 0, 0] ![0, 0, 0, 2])) •
          stack4 id3 id3 ![0, 0, 0] ![0, 0, 0, 2]) *
          ((10 / maxCoeff4 (inv4 ((10 / maxCoeff4 (stack4 id3 id3 ![0, 0, 0] ![0, 0, 0, 2])) •
              stack4 id3 id3 ![0, 0, 0] ![0, 0, 0, 2]))) •
            inv4 ((10 / maxCoeff4 (stack4 id3 id3 ![0, 0, 0] ![0, 0, 0, 2])) •
              stack4 id3 id3 ![0, 0, 0] ![0, 0, 0, 2])) = (50 : ℚ) • (1 : Mat4)
      rw [scaledC6_eval, inv4_scaledC6_eval, maxCoeff_invScaledC6_eval]
      ext i j
      fin_cases i <;> fin_cases j <;>
        norm_num [scaledC6, invScaledC6, Matrix.mul_apply, Fin.sum_univ_four,
          Matrix.smul_apply, Matrix.one_apply, Fin.ext_iff,
          Matrix.vecHead, Matrix.vecTail]
    · intro h
      have h00 : ((50 : ℚ) • (1 : Mat4)) 0 0 = (1 : Mat4) 0 0 := by rw [h]
      simp [Matrix.smul_apply, Matrix.one_apply] at h00

/-- C6 witness: the hypotheses of the amended claim hold at `K = R = I`,
`T = 0`, `last_row = (0,0,0,2)`, and the product is a nonzero scalar
multiple of the identity. -/
theorem C6_amended_scalar_multiple_witness :
    det4 (stack4 id3 id3 ![0, 0, 0] ![0, 0, 0, 2]) ≠ 0 ∧
    maxCoeff4 (stack4 id3 id3 ![0, 0, 0] ![0, 0, 0, 2]) ≠ 0 ∧
    maxCoeff4 (inv4 ((10 / maxCoeff4 (stack4 id3 id3 ![0, 0, 0] ![0, 0, 0, 2])) •
      stack4 id3 id3 ![0, 0, 0] ![0, 0, 0, 2])) ≠ 0 ∧
    ∃ lam : ℚ, lam ≠ 0 ∧
      (compute4by4ProjectionMatrix id3 id3 ![0, 0, 0] ![0, 0, 0, 2]).1 *
        (compute4by4ProjectionMatrix id3 id3 ![0, 0, 0] ![0, 0, 0, 2]).2 =
        lam • (1 : Mat4) := by
  have h1 : det4 (stack4 id3 id3 ![0, 0, 0] ![0, 0, 0, 2]) ≠ 0 := by
    rw [stackC6_eval]
    norm_num [det4, det3s, stackC6, Matrix.vecHead, Matrix.vecTail]
  have h2 : maxCoeff4 (stack4 id3 id3 ![0, 0, 0] ![0, 0, 0, 2]) ≠ 0 := by
    rw [stackC6_eval]
    norm_num [maxCoeff4, stackC6, Matrix.vecHead, Matrix.vecTail]
  have h3 : maxCoeff4 (inv4 ((10 / maxCoeff4 (stack4 id3 id3 ![0, 0, 0] ![0, 0, 0, 2])) •
      stack4 id3 id3 ![0, 0, 0] ![0, 0, 0, 2])) ≠ 0 := by
    rw [scaledC6_eval, inv4_scaledC6_eval, maxCoeff_invScaledC6_eval]
    norm_num
  exact ⟨h1, h2, h3,
    C6_amended_scalar_multiple.1 id3 id3 ![0, 0, 0] ![0, 0, 0, 2] h1 h2 h3⟩

/-- C7 counterexample: `Rotate90Multi` with `cnt = -1` computes the C++
truncated remainder `-1 % 4 = -1`, which matches none of the four cases:
the `default` branch is reached and no outputs are written. -/
theorem C7_counterexample : imgD.Rotate90Multi (-1) = none :=
  rfl

/-- C7 (amended): for every *nonnegative* `cnt` the truncated remainder
`cnt % 4` lies in `{0, 1, 2, 3}`, and whichever value the remainder
takes, `Rotate90Multi` selects exactly the *corresponding* handler
(`0 ↦ Original`, `1 ↦ Rotate90`, `2 ↦ Rotate180`, `3 ↦ Rotate270`);
for every negative `cnt` not divisible by 4 the C++ truncated remainder
is negative, matches no case, and the defensive `default` branch (which
writes no outputs) *is* reached. -/
theorem C7_amended_dispatch (img : Image) (cnt : ℤ) :
    (0 ≤ cnt → Int.tmod cnt 4 ∈ ({0, 1, 2, 3} : Set ℤ)) ∧
    (Int.tmod cnt 4 = 0 → img.Rotate90Multi cnt = some img.Original) ∧
    (Int.tmod cnt 4 = 1 → img.Rotate90Multi cnt = some img.Rotate90) ∧
    (Int.tmod cnt 4 = 2 → img.Rotate90Multi cnt = some img.Rotate180) ∧
    (Int.tmod cnt 4 = 3 → img.Rotate90Multi cnt = some img.Rotate270) ∧
    (cnt < 0 → ¬(4 ∣ cnt) → img.Rotate90Multi cnt = none) := by
  refine ⟨?_, ?_, ?_, ?_, ?_, ?_⟩
  · intro h
    have hnn : 0 ≤ Int.tmod cnt 4 := Int.tmod_nonneg 4 h
    have hlt : Int.tmod cnt 4 < 4 := Int.tmod_lt_of_pos cnt (by norm_num)
    have hcases : Int.tmod cnt 4 = 0 ∨ Int.tmod cnt 4 = 1 ∨
        Int.tmod cnt 4 = 2 ∨ Int.tmod cnt 4 = 3 := by omega
    rcases hcases with h0 | h0 | h0 | h0 <;> rw [h0] <;> simp
  · intro h0
    simp [Image.Rotate90Multi, h0]
  · intro h1
    simp [Image.Rotate90Multi, h1]
  · intro h2
    simp [Image.Rotate90Multi, h2]
  · intro h3
    simp [Image.Rotate90Multi, h3]
  · intro hneg hdvd
    have hne : Int.tmod cnt 4 ≠ 0 := fun h0 => hdvd (Int.dvd_of_tmod_eq_zero h0)
    have hle : Int.tmod cnt 4 ≤ 0 := tmod_nonpos_of_neg cnt 4 hneg
    have h1 : Int.tmod cnt 4 ≠ 1 := by omega
    have h2 : Int.tmod cnt 4 ≠ 2 := by omega
    have h3 : Int.tmod cnt 4 ≠ 3 := by omega
    simp [Image.Rotate90Multi, hne, h1, h2, h3]

/-- C7 witness: `cnt = 6` is nonnegative, its remainder is `2`, and the
dispatch selects precisely `Rotate180`; `cnt = -5` is negative and not
divisible by 4, and the default branch is reached. -/
theorem C7_amended_dispatch_witness :
    Int.tmod 6 4 ∈ ({0, 1, 2, 3} : Set ℤ) ∧
    imgD.Rotate90Multi 6 = some imgD.Rotate180 ∧
    imgD.Rotate90Multi (-5) = none := by
  refine ⟨(C7_amended_dispatch imgD 6).1 (by norm_num),
    (C7_amended_dispatch imgD 6).2.2.2.1 (by decide),
    (C7_amended_dispatch imgD (-5)).2.2.2.2.2 (by norm_num) ?_⟩
  intro hdvd
  rcases hdvd with ⟨k, hk⟩
  omega

/-- C10: `SetK` (a physically mutating operation behind a `const`
signature) replaces the stored intrinsics, so `GetKDouble` returns the
new `K` exactly and subsequent `P`/`inv_P` builds use it, while `R`, `T`,
the last row, width, height, path and the attached bitmap are all
unchanged. -/
theorem C10_setK_frame (img : Image) (Knew : Mat3) :
    (img.SetK Knew).GetKDouble = Knew ∧
    (img.SetK Knew).GetPinvPDouble =
      compute4by4ProjectionMatrix Knew img.R img.T img.lastRow ∧
    (img.SetK Knew).R = img.R ∧
    (img.SetK Knew).T = img.T ∧
    (img.SetK Knew).lastRow = img.lastRow ∧
    (img.SetK Knew).width = img.width ∧
    (img.SetK Knew).height = img.height ∧
    (img.SetK Knew).path = img.path ∧
    (img.SetK Knew).bitmap = img.bitmap :=
  ⟨rfl, rfl, rfl, rfl, rfl, rfl, rfl, rfl, rfl⟩

end ColmapMVS
